import Mathlib

/-!
Verification of the OneAccount tracking scripts.

This file gives a shallow embedding, in Lean, of the two browser scripts of
the repository:

* `src/html/OneAccountTracking.js` — the conversion reporter
  (`window.oneAccountSales`), with its domain/cookie utilities; and
* the cross-domain propagator (`CROSS_DOMAIN` object, `updateAnchorHref`).

JavaScript strings are modelled as Lean `String` (the values in play are
ASCII, so UTF-16 length and character indexing agree with Lean's
character-based view).  JavaScript numbers are modelled as exact rationals
plus a separate NaN constructor (`JSNum`): every arithmetic operation the
scripts perform (addition, multiplication, `Math.floor`) is exact on the
decimal inputs the scripts receive, so the rational model agrees with IEEE
evaluation on all inputs considered here.  The browser cookie jar is
modelled as an association list from cookie names to values, and the DOM
side effects of one `oneAccountSales` call are reified in a `SalesResult`
record.
-/

/- The Batteries definitions of rational arithmetic are `@[irreducible]`,
which blocks `decide` from evaluating concrete runs of the model; restore
reducibility for this file. -/
attribute [local semireducible] Rat.add Rat.mul Rat.sub Rat.inv Rat.ofScientific

/-! ## Character-list utilities

`splitDot` and `joinDot` embed JavaScript's `hostname.split('.')` and
`parts.join('.')` (split/join on a single `'.'` character). -/

/-- Embeds `s.split('.')` on the character list of a string: splits at every
`'.'`, keeping empty pieces, exactly as the JavaScript `String.split` with a
single-character separator does. -/
def splitDot : List Char → List (List Char)
  | [] => [[]]
  | c :: cs =>
    if c = '.' then [] :: splitDot cs
    else
      match splitDot cs with
      | [] => [[c]]
      | p :: ps => (c :: p) :: ps

/-- Embeds `parts.join('.')` on character lists. -/
def joinDot : List (List Char) → List Char
  | [] => []
  | [p] => p
  | p :: ps => p ++ '.' :: joinDot ps

theorem splitDot_ne_nil (l : List Char) : splitDot l ≠ [] := by
  cases l with
  | nil => simp [splitDot]
  | cons c cs =>
    simp only [splitDot]
    split
    · simp
    · split <;> simp_all

theorem joinDot_splitDot (l : List Char) : joinDot (splitDot l) = l := by
  induction l with
  | nil => rfl
  | cons c cs ih =>
    simp only [splitDot]
    split
    · rename_i h
      subst h
      rcases hs : splitDot cs with _ | ⟨p, ps⟩
      · exact absurd hs (splitDot_ne_nil cs)
      · rw [hs] at ih
        cases ps <;> simp_all [joinDot]
    · rcases hs : splitDot cs with _ | ⟨p, ps⟩
      · exact absurd hs (splitDot_ne_nil cs)
      · rw [hs] at ih
        cases ps <;> simp_all [joinDot]

/-! ## Domain resolution (`getRootDomain`)

Embedding of the `getRootDomain` arrow function that appears identically in
both scripts (OneAccountTracking.js lines 38–51). -/

/-- Embeds the regular expression `^(localhost|(\\d{1,3}\\.){3}\\d{1,3})$`
used for the localhost/IPv4 test: either the literal string `localhost`, or
exactly four dot-separated groups of one to three decimal digits. -/
def isLocalhostOrIp (s : String) : Bool :=
  s == "localhost" ||
    (let parts := splitDot s.data
     parts.length == 4 &&
       parts.all fun p => decide (1 ≤ p.length) && decide (p.length ≤ 3) && p.all Char.isDigit)

/-- The fixed list of second-level labels from the source (`slds`). -/
def slds : List String :=
  ["co", "ne", "or", "go", "ac", "ad", "ed", "gr",
   "com", "net", "org", "gov", "edu", "uk", "au", "ca", "de", "fr", "kr"]

/-- Embeds `getRootDomain` from the source: localhost and IPv4 hostnames are
returned unchanged; hostnames of at most two labels are returned unchanged;
otherwise the last three labels are joined when the second-to-last label is
in `slds`, and the last two labels otherwise.  The JavaScript index access
`parts[parts.length - 2]` yields `undefined` when out of range and
`slds.includes(undefined)` is `false`, which the `Option.any` models. -/
def getRootDomain (hostname : String) : String :=
  if isLocalhostOrIp hostname then hostname
  else
    let parts := splitDot hostname.data
    if parts.length ≤ 2 then hostname
    else if ((parts.get? (parts.length - 2)).any fun p => slds.contains (String.mk p))
            && decide (parts.length > 2) then
      String.mk (joinDot (parts.drop (parts.length - 3)))
    else
      String.mk (joinDot (parts.drop (parts.length - 2)))

/-- Claim-side reformulation of the non-localhost branch of root-domain
resolution, written from the specification's words: split on `'.'`; when
the second-to-last label is in the fixed second-level set join the last
three labels, otherwise join the last two.  There is no special case for
short hostnames. -/
def rootDomainSplitRule (hostname : String) : String :=
  let parts := splitDot hostname.data
  let sndToLast : Option (List Char) :=
    match parts.reverse with
    | _ :: x :: _ => some x
    | _ => none
  if sndToLast.any fun p => slds.contains (String.mk p) then
    String.mk (joinDot (parts.drop (parts.length - 3)))
  else
    String.mk (joinDot (parts.drop (parts.length - 2)))

theorem mk_data (s : String) : String.mk s.data = s := rfl

theorem sndToLast_eq_get (parts : List (List Char)) (h : 2 ≤ parts.length) :
    (match parts.reverse with
     | _ :: x :: _ => some x
     | _ => none) = parts.get? (parts.length - 2) := by
  have h1 : (1 : ℕ) < parts.length := h
  have hrev : parts.reverse[1]? = parts[parts.length - 2]? := by
    have := List.getElem?_reverse (l := parts) (i := 1) h1
    simpa [Nat.sub_sub] using this
  cases hr : parts.reverse with
  | nil =>
    exfalso
    have : parts.length = 0 := by
      have := congrArg List.length hr
      simpa using this
    omega
  | cons a t =>
    cases t with
    | nil =>
      exfalso
      have : parts.length = 1 := by
        have := congrArg List.length hr
        simpa using this
      omega
    | cons b t2 =>
      show some b = _
      rw [List.get?_eq_getElem?, ← hrev, hr]
      simp

/-- C6: for every hostname matching `localhost` or an IPv4 dotted-quad,
root-domain resolution returns the hostname unchanged; otherwise, splitting
on `'.'`, if the second-to-last label is in the fixed second-level-label
set the last three labels are joined, else the last two are joined; in
particular `shop.example.co.jp` resolves to `example.co.jp` and
`www.example.com` resolves to `example.com`. -/
theorem c6_root_domain_resolution :
    (∀ s : String, isLocalhostOrIp s = true → getRootDomain s = s) ∧
    (∀ s : String, isLocalhostOrIp s = false → getRootDomain s = rootDomainSplitRule s) ∧
    getRootDomain "shop.example.co.jp" = "example.co.jp" ∧
    getRootDomain "www.example.com" = "example.com" := by
  refine ⟨fun s h => by simp [getRootDomain, h], fun s h => ?_, by decide, by decide⟩
  unfold getRootDomain rootDomainSplitRule
  simp only [h, Bool.false_eq_true, if_false]
  by_cases hlen : (splitDot s.data).length ≤ 2
  · have hdrop3 : (splitDot s.data).drop ((splitDot s.data).length - 3) = splitDot s.data := by
      have h0 : (splitDot s.data).length - 3 = 0 := by omega
      simp [h0]
    have hdrop2 : (splitDot s.data).drop ((splitDot s.data).length - 2) = splitDot s.data := by
      have h0 : (splitDot s.data).length - 2 = 0 := by omega
      simp [h0]
    have hjoin : String.mk (joinDot (splitDot s.data)) = s := by
      rw [joinDot_splitDot]
    simp only [hlen, if_true, hdrop3, hdrop2, hjoin]
    split <;> rfl
  · have h2 : 2 ≤ (splitDot s.data).length := by omega
    rw [sndToLast_eq_get (splitDot s.data) h2]
    simp only [hlen, if_false]
    have hgt : decide ((splitDot s.data).length > 2) = true := by
      simp
      omega
    simp [hgt]

theorem c6_witness :
    getRootDomain "192.168.0.1" = "192.168.0.1" ∧
    getRootDomain "shop.example.co.jp" = rootDomainSplitRule "shop.example.co.jp" :=
  ⟨c6_root_domain_resolution.1 "192.168.0.1" (by decide),
   c6_root_domain_resolution.2.1 "shop.example.co.jp" (by decide)⟩

/-! ## JavaScript value model -/

/-- JavaScript numbers: an exact rational, or NaN.  (Infinities never arise
in the scripts' data paths and are not modelled.) -/
inductive JSNum where
  | num (q : ℚ)
  | nan
deriving DecidableEq

/-- Dynamically typed JavaScript values as they appear in the caller's
payload object: numbers (including NaN), strings, booleans, `undefined`
(also standing for an absent property) and `null`. -/
inductive JSVal where
  | vnum (q : ℚ)
  | vnan
  | vstr (s : String)
  | vbool (b : Bool)
  | vundef
  | vnull
deriving DecidableEq

/-- Embeds `typeof v === 'number'`; NaN is a number in JavaScript. -/
def typeofNumber : JSVal → Bool
  | .vnum _ => true
  | .vnan => true
  | _ => false

/-- The numeric value of a `JSVal` known to be a number. -/
def jsnum : JSVal → JSNum
  | .vnum q => .num q
  | .vnan => .nan
  | _ => .num 0

/-- Embeds JavaScript truthiness (`if (v)`). -/
def truthyJS : JSVal → Bool
  | .vnum q => decide (q ≠ 0)
  | .vnan => false
  | .vstr s => decide (s ≠ "")
  | .vbool b => b
  | .vundef => false
  | .vnull => false

/-- Decimal rendering of the non-negative fraction `a / d` (`d > 1`), used
by `ratToString`: scales by the least power of ten that clears the
denominator, so the shortest decimal expansion is produced, matching the
JavaScript number-to-string conversion on finite-decimal values. -/
def ratToStringFrac (a : ℕ) (d : ℕ) : String :=
  match (List.range 40).find? fun k => decide (d ∣ 10 ^ k) with
  | some k =>
    let scaled := a * 10 ^ k / d
    let intPart := scaled / 10 ^ k
    let fracPart := scaled % 10 ^ k
    let fs := toString fracPart
    toString intPart ++ "." ++ String.mk (List.replicate (k - fs.length) '0') ++ fs
  | none => toString a ++ "/" ++ toString d

/-- Decimal rendering of an exact rational, agreeing with the JavaScript
number-to-string conversion on every finite-decimal value (the only values
the scripts produce). -/
def ratToString (q : ℚ) : String :=
  let sign := if q < 0 then "-" else ""
  if q.den = 1 then sign ++ toString q.num.natAbs
  else sign ++ ratToStringFrac q.num.natAbs q.den

/-- String rendering of a `JSNum` (JavaScript `String(n)`; `NaN` prints as
the string `NaN`). -/
def jsnumToString : JSNum → String
  | .num q => ratToString q
  | .nan => "NaN"

/-- Embeds `String(v)` on payload values. -/
def jsToString : JSVal → String
  | .vnum q => ratToString q
  | .vnan => "NaN"
  | .vstr s => s
  | .vbool b => cond b "true" "false"
  | .vundef => "undefined"
  | .vnull => "null"

/-- The string content of a `JSVal` known to be a string. -/
def jsStr : JSVal → String
  | .vstr s => s
  | _ => ""

/-! ## Percent encoding -/

/-- UTF-8 bytes of a character (used for percent-encoding). -/
def utf8Bytes (c : Char) : List ℕ :=
  let n := c.toNat
  if n < 0x80 then [n]
  else if n < 0x800 then
    [0xC0 + n / 64, 0x80 + n % 64]
  else if n < 0x10000 then
    [0xE0 + n / 4096, 0x80 + n / 64 % 64, 0x80 + n % 64]
  else
    [0xF0 + n / 262144, 0x80 + n / 4096 % 64, 0x80 + n / 64 % 64, 0x80 + n % 64]

/-- Upper-case hexadecimal digit. -/
def hexDigitChar (n : ℕ) : Char :=
  if n < 10 then Char.ofNat ('0'.toNat + n) else Char.ofNat ('A'.toNat + n - 10)

/-- Percent-escape of one byte, `%XX`. -/
def percentByte (b : ℕ) : List Char :=
  ['%', hexDigitChar (b / 16), hexDigitChar (b % 16)]

/-- Characters `encodeURIComponent` leaves unescaped. -/
def isUnescapedURI (c : Char) : Bool :=
  c.isAlphanum || c ∈ ['-', '_', '.', '!', '~', '*', '\'', '(', ')']

/-- Embeds JavaScript's `encodeURIComponent`. -/
def encodeURIComponent (s : String) : String :=
  String.mk (s.data.flatMap fun c =>
    if isUnescapedURI c then [c] else (utf8Bytes c).flatMap percentByte)

/-- Characters the `URLSearchParams` serializer leaves unescaped
(`application/x-www-form-urlencoded`). -/
def isFormSafe (c : Char) : Bool :=
  c.isAlphanum || c ∈ ['*', '-', '.', '_']

/-- Embeds the `URLSearchParams` serialization of one string
(`application/x-www-form-urlencoded`: space becomes `+`). -/
def formEncode (s : String) : String :=
  String.mk (s.data.flatMap fun c =>
    if c = ' ' then ['+']
    else if isFormSafe c then [c]
    else (utf8Bytes c).flatMap percentByte)

/-! ## Cookie store

The browser cookie jar is modelled as an association list from cookie name
to value; `CookieUtil.set` overwrites by name, `CookieUtil.delete` (which
writes a past expiry) removes the entry, and `CookieUtil.get` is a lookup
by name. -/

/-- Lookup by cookie name (`CookieUtil.get`: first entry whose name
matches). -/
def cookieGet : List (String × String) → String → Option String
  | [], _ => none
  | kv :: rest, name => if kv.1 = name then some kv.2 else cookieGet rest name

/-- Removal by cookie name (`CookieUtil.delete`, which overwrites with a
past expiry, removing the entry from the jar). -/
def cookieDel : List (String × String) → String → List (String × String)
  | [], _ => []
  | kv :: rest, name =>
    if kv.1 = name then cookieDel rest name else kv :: cookieDel rest name

/-- Overwrite-or-add by cookie name (`CookieUtil.set`). -/
def cookieSet (store : List (String × String)) (name value : String) :
    List (String × String) :=
  cookieDel store name ++ [(name, value)]

theorem cookieGet_append (l1 l2 : List (String × String)) (n : String) :
    cookieGet (l1 ++ l2) n =
      match cookieGet l1 n with
      | some v => some v
      | none => cookieGet l2 n := by
  induction l1 with
  | nil => simp [cookieGet]
  | cons kv rest ih => by_cases h : kv.1 = n <;> simp [cookieGet, h, ih]

theorem cookieGet_del_self (store : List (String × String)) (n : String) :
    cookieGet (cookieDel store n) n = none := by
  induction store with
  | nil => rfl
  | cons kv rest ih => by_cases h : kv.1 = n <;> simp [cookieDel, cookieGet, h, ih]

theorem cookieGet_del_other (store : List (String × String)) (n m : String)
    (h : m ≠ n) : cookieGet (cookieDel store n) m = cookieGet store m := by
  induction store with
  | nil => rfl
  | cons kv rest ih =>
    have h3 : n ≠ m := fun hc => h hc.symm
    by_cases h1 : kv.1 = n
    · have h2 : kv.1 ≠ m := fun hc => h ((hc ▸ h1) ▸ rfl)
      simp [cookieDel, cookieGet, h1, h2, h3, ih]
    · by_cases h2 : kv.1 = m <;> simp [cookieDel, cookieGet, h, h1, h2, h3, ih]

theorem cookieGet_set_self (store : List (String × String)) (n v : String) :
    cookieGet (cookieSet store n v) n = some v := by
  rw [cookieSet, cookieGet_append, cookieGet_del_self]
  simp [cookieGet]

/-! ## Order payload model -/

/-- One entry of the caller's `items` array, before validation: each field
is an arbitrary JavaScript value (`undefined` models an absent property). -/
structure JSItem where
  code : JSVal
  price : JSVal
  quantity : JSVal
  deriving DecidableEq

/-- The caller's payload object (`dataObject`).  `items` is `none` when the
property is not an array; `repeatFlag` renders the `repeat` property. -/
structure Payload where
  pid : JSVal
  items : Option (List JSItem)
  order_number : JSVal
  currency : JSVal
  total_price : JSVal
  repeatFlag : JSVal
  amount_priority : JSVal
  coupon : JSVal
  deriving DecidableEq

/-- Tags for the `logger.error` calls of `oneAccountSales`, in source
order. -/
inductive ErrTag where
  | containerMissing
  | argNotObject
  | pidInvalid
  | itemsInvalid
  | itemPriceNotNumber (i : ℕ)
  | itemQuantityNotNumber (i : ℕ)
  | paramOutOfSpec
  | noClickId
  deriving DecidableEq

/-- One cookie-jar write performed by the script, recording the arguments
passed to `CookieUtil.set` / `CookieUtil.delete` (days is the expiry in
days; the domain attribute is the `domain` argument, which `CookieUtil`
omits from the cookie string for localhost/IP hosts). -/
inductive CookieOp where
  | set (name value : String) (days : ℕ) (domain : String)
  | del (name : String) (domain : String)
  deriving DecidableEq

/-- An item after the normalization phase. -/
structure NormItem where
  code : String
  price : ℚ
  quantity : ℚ
  deriving DecidableEq

/-- Everything one `oneAccountSales(dataObject)` call observably does.
`primarySrcSet` is the URL assigned to the `src` of the image inside the
`#oneAccountSales` container (or `none` when no assignment happens);
`aspImgSrc` is the `src` of the ASP-postback image appended to the body;
`imgCreated` records whether a new container image element was appended;
`dispatched` records that control reached the URL-building/dispatch
phase. -/
structure SalesResult where
  errors : List ErrTag
  cookieOps : List CookieOp
  cookies : List (String × String)
  clickId : Option String
  dispatched : Bool
  trackingUrl : Option String
  imgCreated : Bool
  primarySrcSet : Option String
  aspImgSrc : Option String
  itemsNorm : Option (List NormItem)
  totalPrice : Option JSNum
  finalAmount : Option JSNum
  deriving DecidableEq

/-! ## Validation phase (source lines 118–148) -/

/-- Embeds `typeof pid === 'string' && pid.length === 15` (negated check at
line 131). -/
def pidOk : JSVal → Bool
  | .vstr s => decide (s.length = 15)
  | _ => false

/-- Embeds the `items.forEach` loop at lines 137–140: one error per item
field whose `typeof` is not `number`, in source order. -/
def itemErrors : ℕ → List JSItem → List ErrTag
  | _, [] => []
  | i, it :: rest =>
    (if typeofNumber it.price then [] else [.itemPriceNotNumber i]) ++
    (if typeofNumber it.quantity then [] else [.itemQuantityNotNumber i]) ++
    itemErrors (i + 1) rest

/-- Embeds the `errors` array built at lines 127–142: not-an-object,
`pid`, `items` and per-item checks. -/
def validationErrors : Option Payload → List ErrTag
  | none => [.argNotObject]
  | some p =>
    (if pidOk p.pid then [] else [.pidInvalid]) ++
    (match p.items with
     | none => [.itemsInvalid]
     | some [] => [.itemsInvalid]
     | some (it :: rest) => itemErrors 0 (it :: rest))

/-! ## Click-identifier validation (source line 164) -/

/-- The character class `[A-Za-z0-9\-_.]` of the acceptance pattern. -/
def isTokenChar (c : Char) : Bool :=
  c.isAlphanum || c ∈ ['-', '_', '.']

/-- Embeds the acceptance test for the `oneAccount` URL parameter:
`/^[A-Za-z0-9\-_.]+$/.test(v) && v.length >= 92 && v.length <= 500`. -/
def oneAccountParamOk (s : String) : Bool :=
  (s.data.all isTokenChar && decide (1 ≤ s.length)) &&
    decide (92 ≤ s.length) && decide (s.length ≤ 500)

/-! ## Normalization phase (source lines 181–205) -/

/-- Embeds `s.substring(0, 50)`. -/
def substr50 (s : String) : String := String.mk (s.data.take 50)

/-- ASCII upper-casing of one character (`toUpperCase` restricted to the
ASCII values the script compares against). -/
def upperChar (c : Char) : Char :=
  if 'a' ≤ c ∧ c ≤ 'z' then Char.ofNat (c.toNat - 32) else c

/-- Embeds `s.toUpperCase()` on ASCII strings. -/
def upperAscii (s : String) : String := String.mk (s.data.map upperChar)

/-- The `validCurrencies` array from line 188. -/
def validCurrencies : List String := ["JPY", "AUD", "CHF"]

/-- Embeds the currency default at lines 189–190. -/
def normCurrency (v : JSVal) : String :=
  match v with
  | .vstr s => if validCurrencies.contains (upperAscii s) then upperAscii s else "JPY"
  | _ => "JPY"

/-- Embeds the order-number default at lines 184–185; `nowMs` and
`randSuffix` stand for the `Date.now()` and `Math.random()` readings of the
synthesized fallback. -/
def normOrderNumber (v : JSVal) (nowMs : ℕ) (randSuffix : String) : String :=
  match v with
  | .vstr s =>
    if s.length > 0 then substr50 s
    else "null-" ++ toString nowMs ++ "-" ++ randSuffix
  | _ => "null-" ++ toString nowMs ++ "-" ++ randSuffix

/-- Embeds the item-code default at line 194. -/
def normCode : JSVal → String
  | .vstr s => if s.length > 0 then substr50 s else "oneAccount"
  | _ => "oneAccount"

/-- Embeds `Number(item.price) || 0` at line 195 for validated items
(`typeof` is `number`, so `Number` is the identity): NaN is falsy and maps
to `0`; every other number is returned unchanged (`0 || 0` is `0`). -/
def normPrice : JSVal → ℚ
  | .vnum q => q
  | _ => 0

/-- Embeds the quantity rule at line 196:
`Number.isInteger(q) && q > 0 && q <= 9999 ? q : 1` (NaN is not an
integer, so it maps to `1`). -/
def normQuantity : JSVal → ℚ
  | .vnum q => if q.den = 1 ∧ 0 < q ∧ q ≤ 9999 then q else 1
  | _ => 1

/-- Embeds the `data.items.map` normalization at lines 193–197. -/
def normItem (it : JSItem) : NormItem :=
  { code := normCode it.code, price := normPrice it.price,
    quantity := normQuantity it.quantity }

/-! ## The conversion reporter `oneAccountSales` -/

/-- The page environment one call runs in: the `#oneAccountSales`
container, any pre-existing image inside it, the page hostname, the
`oneAccount` URL parameter (`none` when absent), the cookie jar, and the
clock/randomness readings used by the synthesized order number. -/
structure Env where
  containerExists : Bool
  containerHasImg : Bool
  hostname : String
  urlParam : Option String
  cookies : List (String × String)
  nowMs : ℕ
  randSuffix : String
  deriving DecidableEq

/-- The fixed sales-server base URL (source line 14). -/
def ONEACCOUNT_SALES_SERVER_URL : String :=
  "https://px.oneaccount.net/oneaccountfly/sales"

/-- The relay-cookie name deleted at line 290. -/
def relayCookieKey : String := "ONEACCOUNT_DELIVERY"

/-- The ASP postback base URL (source line 264). -/
def aspPostbackBase : String := "http://asp-site.local:8080/asp-conversion-pixel.gif"

/-- The result of a call that aborts with the given logged errors: nothing
is written and nothing is added to the page. -/
def abortWith (env : Env) (errs : List ErrTag) : SalesResult :=
  { errors := errs, cookieOps := [], cookies := env.cookies, clickId := none,
    dispatched := false, trackingUrl := none, imgCreated := false,
    primarySrcSet := none, aspImgSrc := none, itemsNorm := none,
    totalPrice := none, finalAmount := none }

/-- Embeds the `data.items.forEach` query construction at lines 223–227:
indexed `i[k][sc]`, `i[k][p]`, `i[k][q]` entries. -/
def itemQueryList : ℕ → List NormItem → List (String × String)
  | _, [] => []
  | i, it :: rest =>
    ("i[" ++ toString i ++ "][sc]", it.code) ::
    ("i[" ++ toString i ++ "][p]", ratToString it.price) ::
    ("i[" ++ toString i ++ "][q]", ratToString it.quantity) ::
    itemQueryList (i + 1) rest

/-- Phases 3–7 of `oneAccountSales` (lines 181–291), entered once a click
identifier `cid` has been resolved.  `ops0`/`store0` are the cookie
operations and jar state after the resolution phase.

Lines 253–255 of the source have the assignment
`img.src = trackingUrl` commented out ("動作確認のためにコメントアウト"),
so `primarySrcSet` is `none` even though `trackingUrl` is built; the
container image element is still created when missing (lines 243–251), and
the ASP postback image is appended to the body with its own URL
(lines 260–277). -/
def dispatchPhase (env : Env) (p : Payload) (pid rootDomain cookieName cid : String)
    (ops0 : List CookieOp) (store0 : List (String × String)) : SalesResult :=
  let orderNumber := normOrderNumber p.order_number env.nowMs env.randSuffix
  let currency := normCurrency p.currency
  let items := (p.items.getD []).map normItem
  let totalPrice : JSNum :=
    match p.total_price with
    | .vnum q => .num q
    | .vnan => .nan
    | _ =>
      let s := items.foldl (fun acc it => acc + it.price * it.quantity) 0
      .num (if currency = "JPY" then ((Rat.floor s : ℤ) : ℚ) else s)
  let finalAmount : JSNum :=
    if p.amount_priority = JSVal.vstr "total_price" ∧ typeofNumber p.total_price = true
    then jsnum p.total_price else totalPrice
  let query : List (String × String) :=
    [("pid", pid), ("oneAccount", cid), ("o", orderNumber), ("c", currency),
     ("p", jsnumToString finalAmount)] ++
    itemQueryList 0 items ++
    (if truthyJS p.coupon then [("coupon", substr50 (jsToString p.coupon))] else []) ++
    (if p.repeatFlag = JSVal.vbool true then [("repeat", "1")] else [])
  let queryString :=
    String.intercalate "&" (query.map fun kv =>
      encodeURIComponent kv.1 ++ "=" ++ encodeURIComponent kv.2)
  let trackingUrl := ONEACCOUNT_SALES_SERVER_URL ++ "?" ++ queryString
  let aspSrc := aspPostbackBase ++ "?" ++
    String.intercalate "&"
      [formEncode "click_id" ++ "=" ++ formEncode cid,
       formEncode "order_total" ++ "=" ++ formEncode (jsnumToString finalAmount),
       formEncode "order_number" ++ "=" ++ formEncode orderNumber]
  let cleanupOps :=
    (if p.repeatFlag = JSVal.vbool true then [] else [CookieOp.del cookieName rootDomain]) ++
    [CookieOp.del relayCookieKey rootDomain]
  let store1 :=
    cookieDel (if p.repeatFlag = JSVal.vbool true then store0 else cookieDel store0 cookieName)
      relayCookieKey
  { errors := [], cookieOps := ops0 ++ cleanupOps, cookies := store1,
    clickId := some cid, dispatched := true, trackingUrl := some trackingUrl,
    imgCreated := !env.containerHasImg, primarySrcSet := none,
    aspImgSrc := some aspSrc, itemsNorm := some items,
    totalPrice := some totalPrice, finalAmount := some finalAmount }

/-- Phase 2 of `oneAccountSales` (lines 150–179): click-identifier
resolution, then hand-off to the later phases.  When the URL carries a
(truthy) `oneAccount` parameter it is used — and persisted for 3653 days on
the root domain — exactly when it passes `oneAccountParamOk`; an invalid
parameter is only logged.  The per-program cookie is read only when the
parameter is absent.  A falsy resolved value aborts with a logged error. -/
def salesMain (env : Env) (p : Payload) : SalesResult :=
  let pid := jsStr p.pid
  let rootDomain := getRootDomain env.hostname
  let cookieName := "_oneAccount_" ++ pid
  let resolved : Option String × List CookieOp × List (String × String) × List ErrTag :=
    match env.urlParam with
    | some s =>
      if s = "" then (cookieGet env.cookies cookieName, [], env.cookies, [])
      else if oneAccountParamOk s then
        (some s, [CookieOp.set cookieName s 3653 rootDomain],
         cookieSet env.cookies cookieName s, [])
      else (none, [], env.cookies, [.paramOutOfSpec])
    | none => (cookieGet env.cookies cookieName, [], env.cookies, [])
  match resolved with
  | (some cid, ops0, store0, errs0) =>
    if cid = "" then
      { abortWith env (errs0 ++ [.noClickId]) with cookieOps := ops0, cookies := store0 }
    else dispatchPhase env p pid rootDomain cookieName cid ops0 store0
  | (none, ops0, store0, errs0) =>
    { abortWith env (errs0 ++ [.noClickId]) with cookieOps := ops0, cookies := store0 }

/-- Embeds `window.oneAccountSales(dataObject)` (lines 118–292): container
check, validation, then the resolution/normalization/dispatch/cleanup
phases.  `arg` is `none` when the argument is not an object. -/
def oneAccountSales (env : Env) (arg : Option Payload) : SalesResult :=
  if env.containerExists then
    match arg with
    | none => abortWith env (validationErrors none)
    | some p =>
      let errs := validationErrors (some p)
      if errs = [] then salesMain env p else abortWith env errs
  else abortWith env [.containerMissing]

/-! ## Pipeline lemmas -/

theorem dispatchPhase_dispatched (env : Env) (p : Payload)
    (pid rootDomain cookieName cid : String) (ops0 : List CookieOp)
    (store0 : List (String × String)) :
    (dispatchPhase env p pid rootDomain cookieName cid ops0 store0).dispatched = true := rfl

theorem dispatchPhase_totalPrice (env : Env) (p : Payload)
    (pid rootDomain cookieName cid : String) (ops0 : List CookieOp)
    (store0 : List (String × String)) :
    (dispatchPhase env p pid rootDomain cookieName cid ops0 store0).totalPrice =
      some (match p.total_price with
        | .vnum q => .num q
        | .vnan => .nan
        | _ =>
          let s := ((p.items.getD []).map normItem).foldl
            (fun acc it => acc + it.price * it.quantity) 0
          .num (if normCurrency p.currency = "JPY" then ((Rat.floor s : ℤ) : ℚ) else s)) := rfl

theorem dispatchPhase_finalAmount (env : Env) (p : Payload)
    (pid rootDomain cookieName cid : String) (ops0 : List CookieOp)
    (store0 : List (String × String)) :
    (dispatchPhase env p pid rootDomain cookieName cid ops0 store0).finalAmount =
      some (if p.amount_priority = JSVal.vstr "total_price" ∧ typeofNumber p.total_price = true
            then jsnum p.total_price
            else (match p.total_price with
              | .vnum q => .num q
              | .vnan => .nan
              | _ =>
                let s := ((p.items.getD []).map normItem).foldl
                  (fun acc it => acc + it.price * it.quantity) 0
                .num (if normCurrency p.currency = "JPY" then ((Rat.floor s : ℤ) : ℚ) else s))) := rfl

theorem dispatchPhase_cookieOps (env : Env) (p : Payload)
    (pid rootDomain cookieName cid : String) (ops0 : List CookieOp)
    (store0 : List (String × String)) :
    (dispatchPhase env p pid rootDomain cookieName cid ops0 store0).cookieOps =
      ops0 ++
        ((if p.repeatFlag = JSVal.vbool true then [] else [CookieOp.del cookieName rootDomain]) ++
          [CookieOp.del relayCookieKey rootDomain]) := rfl

theorem dispatchPhase_cookies (env : Env) (p : Payload)
    (pid rootDomain cookieName cid : String) (ops0 : List CookieOp)
    (store0 : List (String × String)) :
    (dispatchPhase env p pid rootDomain cookieName cid ops0 store0).cookies =
      cookieDel
        (if p.repeatFlag = JSVal.vbool true then store0 else cookieDel store0 cookieName)
        relayCookieKey := rfl

theorem dispatchPhase_clickId (env : Env) (p : Payload)
    (pid rootDomain cookieName cid : String) (ops0 : List CookieOp)
    (store0 : List (String × String)) :
    (dispatchPhase env p pid rootDomain cookieName cid ops0 store0).clickId = some cid := rfl

theorem dispatchPhase_itemsNorm (env : Env) (p : Payload)
    (pid rootDomain cookieName cid : String) (ops0 : List CookieOp)
    (store0 : List (String × String)) :
    (dispatchPhase env p pid rootDomain cookieName cid ops0 store0).itemsNorm =
      some ((p.items.getD []).map normItem) := rfl

theorem oneAccountSales_eq_salesMain (env : Env) (p : Payload)
    (hc : env.containerExists = true) (hv : validationErrors (some p) = []) :
    oneAccountSales env (some p) = salesMain env p := by
  unfold oneAccountSales
  simp [hc, hv]

theorem salesMain_param_valid (env : Env) (p : Payload) (s : String)
    (henv : env.urlParam = some s) (hs : s ≠ "") (hok : oneAccountParamOk s = true) :
    salesMain env p =
      dispatchPhase env p (jsStr p.pid) (getRootDomain env.hostname)
        ("_oneAccount_" ++ jsStr p.pid) s
        [CookieOp.set ("_oneAccount_" ++ jsStr p.pid) s 3653 (getRootDomain env.hostname)]
        (cookieSet env.cookies ("_oneAccount_" ++ jsStr p.pid) s) := by
  unfold salesMain
  simp [henv, hs, hok]

theorem salesMain_param_invalid (env : Env) (p : Payload) (s : String)
    (henv : env.urlParam = some s) (hs : s ≠ "") (hok : oneAccountParamOk s = false) :
    salesMain env p =
      { abortWith env [ErrTag.paramOutOfSpec, ErrTag.noClickId] with
          cookieOps := [], cookies := env.cookies } := by
  unfold salesMain
  simp [henv, hs, hok]

theorem salesMain_param_absent (env : Env) (p : Payload)
    (henv : env.urlParam = none ∨ env.urlParam = some "") :
    salesMain env p =
      match cookieGet env.cookies ("_oneAccount_" ++ jsStr p.pid) with
      | some cid =>
        if cid = "" then
          { abortWith env [ErrTag.noClickId] with cookieOps := [], cookies := env.cookies }
        else
          dispatchPhase env p (jsStr p.pid) (getRootDomain env.hostname)
            ("_oneAccount_" ++ jsStr p.pid) cid [] env.cookies
      | none =>
        { abortWith env [ErrTag.noClickId] with cookieOps := [], cookies := env.cookies } := by
  unfold salesMain
  simp only []
  rcases henv with h | h <;> rw [h] <;>
    cases hg : cookieGet env.cookies ("_oneAccount_" ++ jsStr p.pid) <;>
      simp

theorem salesMain_cookie_some (env : Env) (p : Payload) (v : String)
    (henv : env.urlParam = none ∨ env.urlParam = some "")
    (hg : cookieGet env.cookies ("_oneAccount_" ++ jsStr p.pid) = some v)
    (hv : v ≠ "") :
    salesMain env p =
      dispatchPhase env p (jsStr p.pid) (getRootDomain env.hostname)
        ("_oneAccount_" ++ jsStr p.pid) v [] env.cookies := by
  rw [salesMain_param_absent env p henv, hg]
  exact if_neg hv

theorem salesMain_cookie_fail (env : Env) (p : Payload)
    (henv : env.urlParam = none ∨ env.urlParam = some "")
    (hg : cookieGet env.cookies ("_oneAccount_" ++ jsStr p.pid) = none ∨
          cookieGet env.cookies ("_oneAccount_" ++ jsStr p.pid) = some "") :
    salesMain env p =
      { abortWith env [ErrTag.noClickId] with cookieOps := [], cookies := env.cookies } := by
  rcases hg with hg | hg <;> rw [salesMain_param_absent env p henv, hg] <;> simp

/-- Any call that reaches the dispatch phase entered it through
`dispatchPhase` with a nonempty click identifier that the resolution-phase
jar associates with the per-program cookie name. -/
theorem reach_dispatch (env : Env) (p : Payload)
    (h : (oneAccountSales env (some p)).dispatched = true) :
    ∃ cid ops0 store0,
      oneAccountSales env (some p) =
        dispatchPhase env p (jsStr p.pid) (getRootDomain env.hostname)
          ("_oneAccount_" ++ jsStr p.pid) cid ops0 store0 ∧
      cid ≠ "" ∧
      cookieGet store0 ("_oneAccount_" ++ jsStr p.pid) = some cid := by
  by_cases hc : env.containerExists
  case neg => unfold oneAccountSales at h; simp [hc, abortWith] at h
  by_cases hv : validationErrors (some p) = []
  case neg => unfold oneAccountSales at h; simp [hc, hv, abortWith] at h
  rw [oneAccountSales_eq_salesMain env p hc hv] at h ⊢
  rcases henv : env.urlParam with _ | s
  · cases hg : cookieGet env.cookies ("_oneAccount_" ++ jsStr p.pid) with
    | none =>
      rw [salesMain_cookie_fail env p (Or.inl henv) (Or.inl hg)] at h
      simp [abortWith] at h
    | some v =>
      by_cases hveq : v = ""
      · rw [salesMain_cookie_fail env p (Or.inl henv) (Or.inr (hveq ▸ hg))] at h
        simp [abortWith] at h
      · rw [salesMain_cookie_some env p v (Or.inl henv) hg hveq] at h ⊢
        exact ⟨v, _, _, rfl, hveq, hg⟩
  · by_cases hs : s = ""
    · subst hs
      cases hg : cookieGet env.cookies ("_oneAccount_" ++ jsStr p.pid) with
      | none =>
        rw [salesMain_cookie_fail env p (Or.inr henv) (Or.inl hg)] at h
        simp [abortWith] at h
      | some v =>
        by_cases hveq : v = ""
        · rw [salesMain_cookie_fail env p (Or.inr henv) (Or.inr (hveq ▸ hg))] at h
          simp [abortWith] at h
        · rw [salesMain_cookie_some env p v (Or.inr henv) hg hveq] at h ⊢
          exact ⟨v, _, _, rfl, hveq, hg⟩
    · by_cases hok : oneAccountParamOk s = true
      · rw [salesMain_param_valid env p s henv hs hok] at h ⊢
        exact ⟨s, _, _, rfl, hs,
          cookieGet_set_self env.cookies ("_oneAccount_" ++ jsStr p.pid) s⟩
      · rw [salesMain_param_invalid env p s henv hs (by simpa using hok)] at h
        simp [abortWith] at h

/-! ## Concrete example inputs -/

/-- A 15-character program id. -/
def pidExample : String := "s00000000000001"

/-- A 92-character click identifier over the allowed alphabet. -/
def clickId92 : String := String.mk (List.replicate 92 'a')

/-- A 91-character token over the allowed alphabet (one short of the lower
length bound). -/
def token91 : String := String.mk (List.replicate 91 'b')

/-- A well-formed two-item payload (1000×2 + 500×1, JPY, no caller total). -/
def basePayload : Payload :=
  { pid := .vstr pidExample,
    items := some
      [{ code := .vstr "ITEM1", price := .vnum 1000, quantity := .vnum 2 },
       { code := .vstr "ITEM2", price := .vnum 500, quantity := .vnum 1 }],
    order_number := .vstr "ORDER-1", currency := .vstr "JPY",
    total_price := .vundef, repeatFlag := .vundef,
    amount_priority := .vundef, coupon := .vundef }

/-- A page environment carrying a valid click identifier in the URL. -/
def baseEnv : Env :=
  { containerExists := true, containerHasImg := false,
    hostname := "shop.example.co.jp", urlParam := some clickId92,
    cookies := [], nowMs := 1735689600000, randSuffix := "k3j9v0q2x" }

/-! ## C9 — validation failures are side-effect free -/

/-- C9: for every input on which validation fails (missing container,
non-object argument, bad `pid`, bad `items`, or a non-numeric item field —
exactly the cases `validationErrors` enumerates), the call returns (the
model is a total function) having performed no side effects: no cookie
operation is issued, the jar is unchanged, nothing is dispatched, no image
is created and no `src` is assigned, and the violations are logged. -/
theorem c9_validation_failure_no_side_effects (env : Env) (arg : Option Payload)
    (h : env.containerExists = false ∨ validationErrors arg ≠ []) :
    (oneAccountSales env arg).cookieOps = [] ∧
    (oneAccountSales env arg).cookies = env.cookies ∧
    (oneAccountSales env arg).dispatched = false ∧
    (oneAccountSales env arg).imgCreated = false ∧
    (oneAccountSales env arg).primarySrcSet = none ∧
    (oneAccountSales env arg).aspImgSrc = none ∧
    (oneAccountSales env arg).errors ≠ [] := by
  unfold oneAccountSales
  by_cases hc : env.containerExists
  · rcases h with h | h
    · rw [hc] at h; cases h
    · cases arg with
      | none => simp [hc, abortWith, validationErrors]
      | some p =>
        have hne : ¬validationErrors (some p) = [] := h
        simp [hc, hne, abortWith]
  · simp [hc, abortWith]

theorem c9_witness :
    (oneAccountSales baseEnv (some { basePayload with pid := .vstr "short" })).cookieOps = [] ∧
    (oneAccountSales baseEnv (some { basePayload with pid := .vstr "short" })).cookies =
      baseEnv.cookies ∧
    (oneAccountSales baseEnv (some { basePayload with pid := .vstr "short" })).dispatched = false ∧
    (oneAccountSales baseEnv (some { basePayload with pid := .vstr "short" })).imgCreated = false ∧
    (oneAccountSales baseEnv (some { basePayload with pid := .vstr "short" })).primarySrcSet = none ∧
    (oneAccountSales baseEnv (some { basePayload with pid := .vstr "short" })).aspImgSrc = none ∧
    (oneAccountSales baseEnv (some { basePayload with pid := .vstr "short" })).errors ≠ [] :=
  c9_validation_failure_no_side_effects baseEnv
    (some { basePayload with pid := .vstr "short" }) (Or.inr (by decide))

/-! ## C2 — an invalid URL parameter does not fall back to the cookie -/

/-- C2 (amended): if the page URL carries the tracking parameter but it
fails the pattern or the length bounds, the parameter is rejected with a
logged error and the call aborts with no click identifier: the per-program
cookie is consulted only when the parameter is absent altogether, so
reporting does not proceed even when that cookie holds a value. -/
theorem c2_invalid_param_aborts (env : Env) (p : Payload) (s : String)
    (hc : env.containerExists = true) (hv : validationErrors (some p) = [])
    (henv : env.urlParam = some s) (hs : s ≠ "")
    (hok : oneAccountParamOk s = false) :
    (oneAccountSales env (some p)).clickId = none ∧
    (oneAccountSales env (some p)).dispatched = false ∧
    (oneAccountSales env (some p)).errors = [ErrTag.paramOutOfSpec, ErrTag.noClickId] ∧
    (oneAccountSales env (some p)).cookies = env.cookies ∧
    (oneAccountSales env (some p)).cookieOps = [] := by
  rw [oneAccountSales_eq_salesMain env p hc hv,
    salesMain_param_invalid env p s henv hs hok]
  simp [abortWith]

/-- The environment of the C2 counterexample: the URL carries a 91-character
(too short, hence rejected) parameter while the per-program cookie holds a
valid click identifier. -/
def c2Env : Env :=
  { baseEnv with
    urlParam := some token91,
    cookies := [("_oneAccount_" ++ pidExample, clickId92)] }

theorem c2_counterexample :
    cookieGet c2Env.cookies ("_oneAccount_" ++ pidExample) = some clickId92 ∧
    (oneAccountSales c2Env (some basePayload)).clickId = none ∧
    (oneAccountSales c2Env (some basePayload)).dispatched = false ∧
    (oneAccountSales c2Env (some basePayload)).aspImgSrc = none := by decide

theorem c2_witness :
    (oneAccountSales c2Env (some basePayload)).clickId = none ∧
    (oneAccountSales c2Env (some basePayload)).dispatched = false :=
  have h := c2_invalid_param_aborts c2Env basePayload token91
    (by decide) (by decide) (by decide) (by decide) (by decide)
  ⟨h.1, h.2.1⟩

/-! ## C3 — acceptance of the URL parameter is exactly pattern ∧ bounds -/

/-- C3: when the page URL carries a (truthy) tracking parameter, the call
uses it as the click identifier and persists it in the per-program cookie
`_oneAccount_<pid>` — for 3653 days (≈10 years) on the resolved root
domain — if and only if every character is in `[A-Za-z0-9\-_.]` (with the
pattern's nonemptiness) and its length lies in `[92, 500]`. -/
theorem c3_param_acceptance_iff (env : Env) (p : Payload) (s : String)
    (hc : env.containerExists = true) (hv : validationErrors (some p) = [])
    (henv : env.urlParam = some s) (hs : s ≠ "") :
    (CookieOp.set ("_oneAccount_" ++ jsStr p.pid) s 3653 (getRootDomain env.hostname) ∈
        (oneAccountSales env (some p)).cookieOps ∧
      (oneAccountSales env (some p)).clickId = some s) ↔
    (s.data.all isTokenChar = true ∧ 1 ≤ s.length ∧
      92 ≤ s.length ∧ s.length ≤ 500) := by
  have hiff : oneAccountParamOk s = true ↔
      (s.data.all isTokenChar = true ∧ 1 ≤ s.length ∧
        92 ≤ s.length ∧ s.length ≤ 500) := by
    unfold oneAccountParamOk
    simp [Bool.and_eq_true, and_assoc]
  rw [oneAccountSales_eq_salesMain env p hc hv]
  by_cases hok : oneAccountParamOk s = true
  · rw [salesMain_param_valid env p s henv hs hok]
    constructor
    · intro _
      exact hiff.mp hok
    · intro _
      refine ⟨?_, rfl⟩
      rw [dispatchPhase_cookieOps]
      exact List.mem_append_left _ (List.mem_singleton.mpr rfl)
  · rw [salesMain_param_invalid env p s henv hs (by simpa using hok)]
    constructor
    · intro hmem
      exact absurd hmem.1 (by simp [abortWith])
    · intro hprops
      exact absurd (hiff.mpr hprops) hok

theorem c3_witness :
    (CookieOp.set ("_oneAccount_" ++ pidExample) clickId92 3653
        (getRootDomain baseEnv.hostname) ∈
      (oneAccountSales baseEnv (some basePayload)).cookieOps ∧
    (oneAccountSales baseEnv (some basePayload)).clickId = some clickId92) ∧
    ¬(token91.data.all isTokenChar = true ∧ 1 ≤ token91.length ∧
      92 ≤ token91.length ∧ token91.length ≤ 500) :=
  ⟨(c3_param_acceptance_iff baseEnv basePayload clickId92
      (by decide) (by decide) rfl (by decide)).mpr (by decide),
   by decide⟩

/-! ## C4 — final-amount resolution -/

/-- C4: for every call that reaches dispatch, the reported amount equals
the normalized total price, unless `amount_priority` is the literal string
`total_price` and the caller's original payload supplied a numeric
`total_price`, in which case that original value is reported verbatim. -/
theorem c4_final_amount (env : Env) (p : Payload)
    (h : (oneAccountSales env (some p)).dispatched = true) :
    ((p.amount_priority = JSVal.vstr "total_price" ∧ typeofNumber p.total_price = true) →
      (oneAccountSales env (some p)).finalAmount = some (jsnum p.total_price)) ∧
    (¬(p.amount_priority = JSVal.vstr "total_price" ∧ typeofNumber p.total_price = true) →
      (oneAccountSales env (some p)).finalAmount = (oneAccountSales env (some p)).totalPrice) := by
  obtain ⟨cid, ops0, store0, heq, -, -⟩ := reach_dispatch env p h
  rw [heq, dispatchPhase_finalAmount, dispatchPhase_totalPrice]
  constructor
  · intro hcond
    rw [if_pos hcond]
  · intro hcond
    rw [if_neg hcond]

/-- The C4 example payload: `amount_priority: "total_price"` with an
explicit numeric `total_price` of `999.9` under JPY. -/
def c4Payload : Payload :=
  { basePayload with
    total_price := .vnum (9999/10),
    amount_priority := .vstr "total_price" }

theorem c4_witness :
    (oneAccountSales baseEnv (some c4Payload)).finalAmount =
      some (JSNum.num (9999/10)) :=
  ((c4_final_amount baseEnv c4Payload (by decide)).1 ⟨rfl, rfl⟩).trans (by decide)

/-! ## C5 — total-price computation -/

/-- C5: for every call that reaches dispatch with a non-numeric caller
`total_price`, the normalized total equals the sum over the normalized
items of price × quantity, floored to an integer when the normalized
currency is JPY. -/
theorem c5_total_price_computation (env : Env) (p : Payload)
    (h : (oneAccountSales env (some p)).dispatched = true)
    (hnum : typeofNumber p.total_price = false) :
    (oneAccountSales env (some p)).totalPrice =
      some (JSNum.num
        (let s := ((p.items.getD []).map normItem).foldl
            (fun acc it => acc + it.price * it.quantity) 0
         if normCurrency p.currency = "JPY" then ((Rat.floor s : ℤ) : ℚ) else s)) := by
  obtain ⟨cid, ops0, store0, heq, -, -⟩ := reach_dispatch env p h
  rw [heq, dispatchPhase_totalPrice]
  cases htp : p.total_price <;> rw [htp] at hnum <;>
    simp_all [typeofNumber]

theorem c5_witness :
    (oneAccountSales baseEnv (some basePayload)).totalPrice =
      some (JSNum.num 2500) :=
  (c5_total_price_computation baseEnv basePayload (by decide) (by decide)).trans
    (by decide)

/-! ## C7 — cookie cleanup -/

theorem cookieName_ne_relay (pid : String) :
    ("_oneAccount_" ++ pid) ≠ relayCookieKey := by
  intro hc
  have h2 : ("_oneAccount_" ++ pid).data.head? = some '_' := by
    rw [String.data_append]
    rfl
  rw [hc] at h2
  exact absurd h2 (by decide)

/-- C7: after a call that reaches the cleanup phase, when the payload's
`repeat` flag is not exactly `true` the per-program cookie is deleted (the
delete operation is issued and the final jar no longer holds the cookie)
and the relay cookie is deleted; when `repeat` is exactly `true` the
per-program cookie is left in the jar (still holding the click identifier
the call used) while the relay cookie is still deleted. -/
theorem c7_cookie_cleanup (env : Env) (p : Payload)
    (h : (oneAccountSales env (some p)).dispatched = true) :
    (p.repeatFlag ≠ JSVal.vbool true →
      CookieOp.del ("_oneAccount_" ++ jsStr p.pid) (getRootDomain env.hostname) ∈
          (oneAccountSales env (some p)).cookieOps ∧
        cookieGet (oneAccountSales env (some p)).cookies
          ("_oneAccount_" ++ jsStr p.pid) = none) ∧
    (p.repeatFlag = JSVal.vbool true →
      cookieGet (oneAccountSales env (some p)).cookies
          ("_oneAccount_" ++ jsStr p.pid) = (oneAccountSales env (some p)).clickId ∧
      (oneAccountSales env (some p)).clickId.isSome = true) ∧
    CookieOp.del relayCookieKey (getRootDomain env.hostname) ∈
      (oneAccountSales env (some p)).cookieOps ∧
    cookieGet (oneAccountSales env (some p)).cookies relayCookieKey = none := by
  obtain ⟨cid, ops0, store0, heq, hcid, hstore⟩ := reach_dispatch env p h
  rw [heq, dispatchPhase_cookieOps, dispatchPhase_cookies, dispatchPhase_clickId]
  have hne := cookieName_ne_relay (jsStr p.pid)
  refine ⟨fun hrep => ?_, fun hrep => ?_, ?_, cookieGet_del_self _ _⟩
  · simp only [if_neg hrep]
    refine ⟨by simp, ?_⟩
    rw [cookieGet_del_other _ _ _ hne, cookieGet_del_self]
  · simp only [if_pos hrep]
    refine ⟨?_, rfl⟩
    rw [cookieGet_del_other _ _ _ hne, hstore]
  · by_cases hrep : p.repeatFlag = JSVal.vbool true
    · simp only [if_pos hrep]; simp
    · simp only [if_neg hrep]; simp

theorem c7_witness :
    (CookieOp.del ("_oneAccount_" ++ pidExample) (getRootDomain baseEnv.hostname) ∈
        (oneAccountSales baseEnv (some basePayload)).cookieOps ∧
      cookieGet (oneAccountSales baseEnv (some basePayload)).cookies
        ("_oneAccount_" ++ pidExample) = none) ∧
    CookieOp.del relayCookieKey (getRootDomain baseEnv.hostname) ∈
      (oneAccountSales baseEnv (some basePayload)).cookieOps ∧
    cookieGet (oneAccountSales baseEnv (some basePayload)).cookies relayCookieKey = none :=
  have h := c7_cookie_cleanup baseEnv basePayload (by decide)
  ⟨h.1 (by decide), h.2.2⟩

/-! ## C10 — NaN item fields pass validation and are normalized away -/

theorem itemErrors_nil (i : ℕ) (l : List JSItem)
    (h : ∀ it ∈ l, typeofNumber it.price = true ∧ typeofNumber it.quantity = true) :
    itemErrors i l = [] := by
  induction l generalizing i with
  | nil => rfl
  | cons it rest ih =>
    have h1 := h it (List.mem_cons_self it rest)
    have h2 := ih (fun x hx => h x (List.mem_cons_of_mem it hx)) (i := i + 1)
    simp [itemErrors, h1.1, h1.2, h2]

theorem validationErrors_nil (p : Payload) (l : List JSItem)
    (hpid : pidOk p.pid = true) (hitems : p.items = some l) (hne : l ≠ [])
    (hnum : ∀ it ∈ l, typeofNumber it.price = true ∧ typeofNumber it.quantity = true) :
    validationErrors (some p) = [] := by
  unfold validationErrors
  simp only []
  rw [hitems]
  cases l with
  | nil => exact absurd rfl hne
  | cons it rest => simp [hpid, itemErrors_nil 0 (it :: rest) hnum]

theorem paramOk_ne_empty (s : String) (h : oneAccountParamOk s = true) : s ≠ "" := by
  intro he
  subst he
  exact absurd h (by decide)

/-- C10: an item whose `price` or `quantity` is NaN passes validation
(the checks only ask `typeof` to be `number`), normalization maps a NaN
price to `0` and any quantity that is not an integer in `[1, 9999]`
(including NaN) to `1`, and the call proceeds to dispatch. -/
theorem c10_nan_item_handling (env : Env) (p : Payload) (l : List JSItem) (s : String)
    (hc : env.containerExists = true) (hpid : pidOk p.pid = true)
    (hitems : p.items = some l) (hne : l ≠ [])
    (hnum : ∀ it ∈ l, typeofNumber it.price = true ∧ typeofNumber it.quantity = true)
    (henv : env.urlParam = some s) (hok : oneAccountParamOk s = true) :
    typeofNumber JSVal.vnan = true ∧
    validationErrors (some p) = [] ∧
    (oneAccountSales env (some p)).dispatched = true ∧
    (oneAccountSales env (some p)).itemsNorm = some (l.map normItem) ∧
    (∀ c q, (normItem ⟨c, JSVal.vnan, q⟩).price = 0) ∧
    (∀ c pr, (normItem ⟨c, pr, JSVal.vnan⟩).quantity = 1) ∧
    (∀ (c pr : JSVal) (q : ℚ), ¬(q.den = 1 ∧ 0 < q ∧ q ≤ 9999) →
      (normItem ⟨c, pr, JSVal.vnum q⟩).quantity = 1) := by
  have hv := validationErrors_nil p l hpid hitems hne hnum
  have hs := paramOk_ne_empty s hok
  rw [oneAccountSales_eq_salesMain env p hc hv,
    salesMain_param_valid env p s henv hs hok]
  refine ⟨rfl, hv, rfl, ?_, fun c q => rfl, fun c pr => rfl,
    fun c pr q hq => ?_⟩
  · rw [dispatchPhase_itemsNorm, hitems]
    rfl
  · simp [normItem, normQuantity, hq]

/-- The C10 example payload: a single item whose price and quantity are
both NaN. -/
def c10Payload : Payload :=
  { basePayload with
    items := some [{ code := .vstr "NANITEM", price := .vnan, quantity := .vnan }] }

theorem c10_witness :
    (oneAccountSales baseEnv (some c10Payload)).dispatched = true ∧
    (oneAccountSales baseEnv (some c10Payload)).itemsNorm =
      some [{ code := "NANITEM", price := 0, quantity := 1 }] :=
  have h := c10_nan_item_handling baseEnv c10Payload
    [{ code := .vstr "NANITEM", price := .vnan, quantity := .vnan }] clickId92
    (by decide) (by decide) rfl (by decide) (by decide) rfl (by decide)
  ⟨h.2.2.1, h.2.2.2.1.trans (by decide)⟩

/-! ## C1 — the primary tracking URL is built but never attached -/

/-- C1 (code evaluation at a failing input): on a fully valid invocation —
container present, valid payload, valid URL click identifier — the call
dispatches, the primary tracking URL is built from the fixed sales-server
base, and the container image element is created; but no URL is ever
assigned to that image's `src` (the assignment at source line 255 is
commented out), contradicting the claim that the tracking URL is attached
as the image's `src`. -/
theorem c1_primary_beacon_not_attached :
    (oneAccountSales baseEnv (some basePayload)).dispatched = true ∧
    (oneAccountSales baseEnv (some basePayload)).trackingUrl.isSome = true ∧
    ((oneAccountSales baseEnv (some basePayload)).trackingUrl.getD "").data.take
        ONEACCOUNT_SALES_SERVER_URL.length = ONEACCOUNT_SALES_SERVER_URL.data ∧
    (oneAccountSales baseEnv (some basePayload)).imgCreated = true ∧
    (oneAccountSales baseEnv (some basePayload)).primarySrcSet = none := by decide

/-! ## C8 — cross-domain anchor rewriting (`CROSS_DOMAIN.updateAnchorHref`) -/

/-- The propagated URL parameter name (`CROSS_DOMAIN.PARAM_KEY`). -/
def PARAM_KEY : String := "oneAccount"

/-- Whether the first list is an initial segment of the second (helper for
the `includes` embedding). -/
def leadsWith : List Char → List Char → Bool
  | [], _ => true
  | _ :: _, [] => false
  | a :: as, b :: bs => a = b && leadsWith as bs

/-- Embeds JavaScript's `hay.includes(needle)` on character lists. -/
def hasSub (needle : List Char) : List Char → Bool
  | [] => leadsWith needle []
  | c :: cs => leadsWith needle (c :: cs) || hasSub needle cs

/-- Embeds `href.indexOf('#')`: the index of the first `'#'`, or `none`
for the JavaScript `-1`. -/
def idxOfHash : List Char → Option ℕ
  | [] => none
  | c :: cs => if c = '#' then some 0 else (idxOfHash cs).map (· + 1)

/-- Embeds `CROSS_DOMAIN.updateAnchorHref` (cross-domain script lines
184–204): `none` models the early returns (no href / same host / parameter
already present); otherwise the returned string is the value assigned to
`anchor.href`.  `anchor.hostname` and `window.location.hostname` are passed
in as the browser supplies them. -/
def updateAnchorHref (pageHostname anchorHostname href value : String) :
    Option String :=
  if href = "" ∨ anchorHostname = pageHostname then none
  else if hasSub (PARAM_KEY ++ "=").data href.data then none
  else
    let l := href.data
    let pre :=
      match idxOfHash l with
      | some i => l.take i
      | none => l
    let hash :=
      match idxOfHash l with
      | some i => l.drop i
      | none => []
    some (String.mk (pre ++ (if pre.contains '?' then '&' else '?') ::
      ((PARAM_KEY ++ "=").data ++ value.data ++ hash)))

/-- Claim-side description of the rewrite: the original pre-fragment part,
then `?oneAccount=<value>` when that part contains no `'?'` and
`&oneAccount=<value>` when it does, then the original fragment. -/
def anchorRewriteSpec (href value : String) : String :=
  let pre := href.data.takeWhile fun c => c != '#'
  let frag := href.data.dropWhile fun c => c != '#'
  String.mk (pre ++ (if pre.contains '?' then '&' else '?') ::
    ("oneAccount=".data ++ value.data ++ frag))

theorem idxOfHash_take_drop (l : List Char) :
    (match idxOfHash l with | some i => l.take i | none => l) =
      (l.takeWhile fun c => c != '#') ∧
    (match idxOfHash l with | some i => l.drop i | none => []) =
      (l.dropWhile fun c => c != '#') := by
  induction l with
  | nil => exact ⟨rfl, rfl⟩
  | cons c cs ih =>
    by_cases hc : c = '#'
    · subst hc
      simp [idxOfHash, List.takeWhile_cons, List.dropWhile_cons]
    · have hne2 : (c != '#') = true := by simp [hc]
      cases hx : idxOfHash cs with
      | none =>
        rw [hx] at ih
        simp only [] at ih
        have hidx : idxOfHash (c :: cs) = none := by simp [idxOfHash, hc, hx]
        constructor
        · rw [hidx]
          simp only [List.takeWhile_cons, hne2, if_true]
          rw [← ih.1]
        · rw [hidx]
          simp only [List.dropWhile_cons, hne2, if_true]
          rw [← ih.2]
      | some i =>
        rw [hx] at ih
        simp only [] at ih
        have hidx : idxOfHash (c :: cs) = some (i + 1) := by simp [idxOfHash, hc, hx]
        constructor
        · rw [hidx]
          simp only [List.take_succ_cons, List.takeWhile_cons, hne2, if_true]
          rw [← ih.1]
        · rw [hidx]
          simp only [List.drop_succ_cons, List.dropWhile_cons, hne2, if_true]
          rw [← ih.2]

/-- C8: for every anchor whose host differs from the current page's host,
whose href is nonempty, and whose href does not already carry the tracking
parameter, the propagator rewrites the href to the original pre-fragment
part followed by `?oneAccount=<value>` when that part contains no `'?'`
(or `&oneAccount=<value>` when it does), with the original fragment
identifier reattached after the appended parameter. -/
theorem c8_anchor_rewrite (pageHostname anchorHostname href value : String)
    (hhost : anchorHostname ≠ pageHostname) (hne : href ≠ "")
    (hnosub : hasSub ("oneAccount=").data href.data = false) :
    updateAnchorHref pageHostname anchorHostname href value =
      some (anchorRewriteSpec href value) := by
  unfold updateAnchorHref anchorRewriteSpec
  have h1 : ¬(href = "" ∨ anchorHostname = pageHostname) := by
    rintro (h | h)
    · exact hne h
    · exact hhost h
  rw [if_neg h1]
  have h2 : ¬(hasSub (PARAM_KEY ++ "=").data href.data = true) := by
    have : (PARAM_KEY ++ "=").data = ("oneAccount=").data := rfl
    rw [this, hnosub]
    exact Bool.false_ne_true
  rw [if_neg h2]
  simp only []
  rw [(idxOfHash_take_drop href.data).1, (idxOfHash_take_drop href.data).2]
  rfl

theorem c8_witness :
    updateAnchorHref "site-a.local" "site-b.local"
        "http://site-b.local/p?x=1#frag" "CLICKVALUE" =
      some (anchorRewriteSpec "http://site-b.local/p?x=1#frag" "CLICKVALUE") ∧
    anchorRewriteSpec "http://site-b.local/p?x=1#frag" "CLICKVALUE" =
      "http://site-b.local/p?x=1&oneAccount=CLICKVALUE#frag" :=
  ⟨c8_anchor_rewrite "site-a.local" "site-b.local"
      "http://site-b.local/p?x=1#frag" "CLICKVALUE"
      (by decide) (by decide) (by decide),
   by decide⟩
